import Mathlib

/-!
Shallow embedding of the `env` library (package `env`, file `env.go`): a
reflective binder that populates struct fields from environment variables
driven by `env:"NAME[,opts]"`, `envDefault:"..."` and `envSeparator:"..."`
struct tags.  Go `reflect` values are embedded as the inductive `GoValue`,
the environment as an association list, and the functions `Parse`,
`doParse`, `get`, `parseKeyForOption`, `getRequired`, `getOr`, `set` and
`handleSlice` are translated one-to-one.  Standard-library collaborators
(`os.LookupEnv`, `strconv.Parse*`, `time.ParseDuration`) are modelled from
their documented behavior, since they are not part of the repository.
-/

namespace EnvLib

/-- Environment model: an association list of variable names to values.
Models the process-wide key-to-string store queried by `os.LookupEnv`. -/
abbrev Env := List (String × String)

/-- Model of `os.LookupEnv`: return the first binding of `key`, or `none`
when the variable is absent. -/
def lookupEnv (env : Env) (key : String) : Option String :=
  (env.find? (fun p => p.1 == key)).map (fun p => p.2)

/-- Mirrors `ErrNotAStructPtr = errors.New("Expected a pointer to a Struct")`. -/
def errNotAStructPtr : String := "Expected a pointer to a Struct"

/-- Mirrors `ErrUnsupportedType = errors.New("Type is not supported")`. -/
def errUnsupportedType : String := "Type is not supported"

/-- Mirrors `ErrMismatchType`. -/
def errMismatchType : String := "Data Type mismatch. Mismatching left and right hand types"

/-- Mirrors `ErrUnsupportedSliceType = errors.New("Unsupported slice type")`. -/
def errUnsupportedSliceType : String := "Unsupported slice type"

/-- Message built by `getRequired` for an absent required variable. -/
def requiredErrMsg (key : String) : String :=
  "Required environment variable " ++ key ++ " is not set"

/-- Message built by `get`'s default option branch for an unrecognized option. -/
def unrecognizedOptionMsg (opt : String) : String :=
  "Env tag option " ++ opt ++ " not supported."

/-- Element type of a Go slice field, as dispatched by `handleSlice`'s
`switch field.Type()` over `[]string`, `[]int`, `[]int64`, `[]float32`,
`[]float64`, `[]bool`; every other slice type falls to the default case. -/
inductive SliceElem where
  | eString
  | eInt
  | eInt64
  | eFloat32
  | eFloat64
  | eBool
  | eOther
deriving DecidableEq, Repr

/-- Per-field reflection metadata: `canSet` models `reflect.Value.CanSet`
(exported, addressable), the three tag strings model
`field.Tag.Get("env")`, `Tag.Get("envDefault")` and `Tag.Get("envSeparator")`
(each `""` when the tag is absent). -/
structure FieldMeta where
  canSet : Bool
  tagEnv : String
  tagDefault : String
  tagSeparator : String
deriving DecidableEq, Repr

/-- A Go value as seen through `reflect`, restricted to the kinds the binder
dispatches on.  `vInt64` carries the flag `refType.Type.String() == "time.Duration"`
used by `set`'s `reflect.Int64` case; `vStruct` carries the field list in
declaration order; `vPtr none` is a nil pointer; `vOther` stands for every
kind the binder does not support (map, chan, func, ...).  Float values are
carried exactly as rationals; IEEE rounding of `strconv.ParseFloat` is not
modelled (no claim depends on float values). -/
inductive GoValue where
  | vString (s : String)
  | vBool (b : Bool)
  | vInt (n : Int)
  | vUint (n : Nat)
  | vFloat32 (q : Rat)
  | vFloat64 (q : Rat)
  | vInt64 (isDuration : Bool) (n : Int)
  | vSlice (elem : SliceElem) (elems : List GoValue)
  | vStruct (fields : List (FieldMeta × GoValue))
  | vPtr (pointee : Option GoValue)
  | vOther
deriving Repr

/-- Kind test `ref.Field(i).Kind() == reflect.Struct`. -/
def isStructKind : GoValue → Bool
  | .vStruct _ => true
  | _ => false

/-- Test `reflect.Ptr == ref.Field(i).Kind() && !ref.Field(i).IsNil()`. -/
def isNonNilPtr : GoValue → Bool
  | .vPtr (some _) => true
  | _ => false

/-- Test `Kind() == reflect.Ptr && Elem().Kind() == reflect.Struct`
(line 130; `Elem()` of a nil pointer has kind `Invalid`, not `Struct`). -/
def isPtrToStruct : GoValue → Bool
  | .vPtr (some (.vStruct _)) => true
  | _ => false

/-- Test of `Parse`'s precondition: the argument is a pointer whose pointee
is a struct. -/
def isStructPtr : GoValue → Bool
  | .vPtr (some (.vStruct _)) => true
  | _ => false

/-! ## Standard-library collaborators (modelled from documented behavior) -/

/-- Numeric value of a decimal digit character. -/
def digitVal (c : Char) : Nat := c.toNat - '0'.toNat

/-- Value of a non-empty all-decimal-digit character list; `none` when the
list is empty or contains a non-digit. -/
def decDigitsVal : List Char → Option Nat
  | [] => none
  | cs =>
    cs.foldl
      (fun acc c =>
        match acc with
        | none => none
        | some n => if c.isDigit then some (n * 10 + digitVal c) else none)
      (some 0)

/-- Model of `strconv.ParseBool` (documented behavior): accepts exactly
"1", "t", "T", "TRUE", "true", "True", "0", "f", "F", "FALSE", "false",
"False". -/
def parseBoolGo (s : String) : Except String Bool :=
  if s = "1" ∨ s = "t" ∨ s = "T" ∨ s = "TRUE" ∨ s = "true" ∨ s = "True" then
    .ok true
  else if s = "0" ∨ s = "f" ∨ s = "F" ∨ s = "FALSE" ∨ s = "false" ∨ s = "False" then
    .ok false
  else
    .error ("strconv.ParseBool: parsing " ++ "\"" ++ s ++ "\"" ++ ": invalid syntax")

/-- Model of `strconv.ParseInt(s, 10, bitSize)` (documented behavior):
optional sign followed by a non-empty run of decimal digits; the result
must fit in `bitSize` signed bits, otherwise a range error. -/
def parseIntGo (s : String) (bitSize : Nat) : Except String Int :=
  match s.data with
  | [] => .error ("strconv.ParseInt: parsing " ++ "\"" ++ s ++ "\"" ++ ": invalid syntax")
  | c :: rest =>
    let signDigits :=
      if c = '-' then (true, rest)
      else if c = '+' then (false, rest)
      else (false, c :: rest)
    match decDigitsVal signDigits.2 with
    | none => .error ("strconv.ParseInt: parsing " ++ "\"" ++ s ++ "\"" ++ ": invalid syntax")
    | some n =>
      let v : Int := if signDigits.1 then -(n : Int) else (n : Int)
      if -(2 ^ (bitSize - 1) : Int) ≤ v ∧ v ≤ 2 ^ (bitSize - 1) - 1 then .ok v
      else .error ("strconv.ParseInt: parsing " ++ "\"" ++ s ++ "\"" ++ ": value out of range")

/-- Model of `strconv.ParseUint(s, 10, bitSize)` (documented behavior):
a non-empty run of decimal digits, no sign characters; the result must fit
in `bitSize` bits. -/
def parseUintGo (s : String) (bitSize : Nat) : Except String Nat :=
  match decDigitsVal s.data with
  | none => .error ("strconv.ParseUint: parsing " ++ "\"" ++ s ++ "\"" ++ ": invalid syntax")
  | some n =>
    if n ≤ 2 ^ bitSize - 1 then .ok n
    else .error ("strconv.ParseUint: parsing " ++ "\"" ++ s ++ "\"" ++ ": value out of range")

/-- Model of `strconv.ParseFloat` (documented behavior) on the plain decimal
forms `[+-]? digits [. digits]? ([eE] [+-]? digits)?` with at least one
mantissa digit, valued exactly over the rationals.  Hexadecimal floats,
infinities and NaNs are not modelled and `bitSize` rounding is ignored:
no claim depends on float values. -/
def parseFloatGo (s : String) (bitSize : Nat) : Except String Rat :=
  let _ := bitSize
  let synErr : Except String Rat :=
    .error ("strconv.ParseFloat: parsing " ++ "\"" ++ s ++ "\"" ++ ": invalid syntax")
  let signRest :=
    match s.data with
    | '-' :: t => (true, t)
    | '+' :: t => (false, t)
    | t => (false, t)
  let neg := signRest.1
  let cs1 := signRest.2
  let ip := cs1.takeWhile Char.isDigit
  let cs2 := cs1.dropWhile Char.isDigit
  let fracRest :=
    match cs2 with
    | '.' :: t => (t.takeWhile Char.isDigit, t.dropWhile Char.isDigit)
    | t => ([], t)
  let fp := fracRest.1
  let cs3 := fracRest.2
  if ip.isEmpty ∧ fp.isEmpty then synErr
  else
    let ipN := (decDigitsVal ip).getD 0
    let fpN := (decDigitsVal fp).getD 0
    let base : Rat := (if neg then -1 else 1) * ((ipN : Rat) + (fpN : Rat) / (10 : Rat) ^ fp.length)
    match cs3 with
    | [] => .ok base
    | e :: t =>
      if e = 'e' ∨ e = 'E' then
        let esignRest :=
          match t with
          | '-' :: t2 => (true, t2)
          | '+' :: t2 => (false, t2)
          | t2 => (false, t2)
        match decDigitsVal esignRest.2 with
        | none => synErr
        | some ex =>
          if (esignRest.2.all Char.isDigit) then
            .ok (if esignRest.1 then base / (10 : Rat) ^ ex else base * (10 : Rat) ^ ex)
          else synErr
      else synErr

/-- Scanner of the `strings.Split` model: walk the text left to right,
emitting a piece whenever the (non-empty) separator is a prefix of the
remainder.  The fuel is bounded by the text length plus one and each step
consumes at least one character, so exhaustion is unreachable. -/
def splitLoop (sep : List Char) : Nat → List Char → List Char → List (List Char)
  | _, acc, [] => [acc.reverse]
  | 0, acc, rest => [acc.reverse ++ rest]
  | fuel + 1, acc, c :: rest =>
    if sep.isPrefixOf (c :: rest) then
      acc.reverse :: splitLoop sep fuel [] (rest.drop (sep.length - 1))
    else
      splitLoop sep fuel (c :: acc) rest

/-- Model of `strings.Split(s, sep)` (documented behavior): all substrings
of `s` separated by `sep`; for an empty separator, the individual
characters. -/
def stringsSplit (s sep : String) : List String :=
  match sep.data with
  | [] => s.data.map (fun c => String.mk [c])
  | c0 :: sepRest =>
    (splitLoop (c0 :: sepRest) (s.data.length + 1) [] s.data).map String.mk

/-- Nanoseconds per unit, mirroring `time.ParseDuration`'s unit map. -/
def durUnit : String → Option Nat
  | "ns" => some 1
  | "us" => some 1000
  | "µs" => some 1000
  | "μs" => some 1000
  | "ms" => some 1000000
  | "s" => some 1000000000
  | "m" => some 60000000000
  | "h" => some 3600000000000
  | _ => none

/-- Largest int64 value, used by the overflow checks of the
`time.ParseDuration` model. -/
def maxInt64 : Nat := 9223372036854775807

/-- Model of `time`'s `leadingInt`: consume leading decimal digits,
failing (`none`) on int64 overflow. -/
def leadingIntGo : Nat → List Char → Option (Nat × List Char)
  | x, [] => some (x, [])
  | x, c :: rest =>
    if c.isDigit then
      if x * 10 + digitVal c > maxInt64 then none
      else leadingIntGo (x * 10 + digitVal c) rest
    else some (x, c :: rest)

/-- Model of `time`'s `leadingFraction`: consume leading decimal digits as
`(value, scale)`, silently stopping the accumulation (but still consuming
digits) once the value would overflow int64. -/
def leadingFractionGo : Nat → Nat → Bool → List Char → Nat × Nat × List Char
  | x, scale, _, [] => (x, scale, [])
  | x, scale, overflow, c :: rest =>
    if c.isDigit then
      if overflow then leadingFractionGo x scale true rest
      else if x * 10 + digitVal c > maxInt64 then leadingFractionGo x scale true rest
      else leadingFractionGo (x * 10 + digitVal c) (scale * 10) false rest
    else (x, scale, c :: rest)

/-- One `[number][.fraction]unit` step loop of the `time.ParseDuration`
model.  The fuel is bounded by the remaining character count plus one;
each iteration consumes at least the non-empty unit token, so the fuel
never runs out when started with `length + 1`.  Fractional contributions
are computed exactly as `f * unit / scale` (Go computes the same quantity
in float64; the difference is invisible to every claim). -/
def durLoop (orig : String) : Nat → Nat → List Char → Except String Nat
  | _, d, [] => .ok d
  | 0, _, _ => .error ("time: invalid duration " ++ orig)
  | fuel + 1, d, c :: rest =>
    if ¬(c.isDigit ∨ c = '.') then .error ("time: invalid duration " ++ orig)
    else
      match leadingIntGo 0 (c :: rest) with
      | none => .error ("time: invalid duration " ++ orig)
      | some (v, cs1) =>
        let pre := cs1.length != (c :: rest).length
        let fParts :=
          match cs1 with
          | '.' :: t =>
            let r := leadingFractionGo 0 1 false t
            (r.1, r.2.1, r.2.2, r.2.2.length != t.length)
          | _ => (0, 1, cs1, false)
        let f := fParts.1
        let scale := fParts.2.1
        let cs2 := fParts.2.2.1
        let post := fParts.2.2.2
        if !pre && !post then .error ("time: invalid duration " ++ orig)
        else
          let u := cs2.takeWhile (fun ch => ¬(ch.isDigit ∨ ch = '.'))
          let cs3 := cs2.dropWhile (fun ch => ¬(ch.isDigit ∨ ch = '.'))
          if u.isEmpty then .error ("time: missing unit in duration " ++ orig)
          else
            match durUnit (String.mk u) with
            | none => .error ("time: unknown unit " ++ String.mk u ++ " in duration " ++ orig)
            | some unit =>
              if v > maxInt64 / unit then .error ("time: invalid duration " ++ orig)
              else
                let v2 := v * unit + (if f > 0 then f * unit / scale else 0)
                if v2 > maxInt64 then .error ("time: invalid duration " ++ orig)
                else if d + v2 > maxInt64 then .error ("time: invalid duration " ++ orig)
                else durLoop orig fuel (d + v2) cs3

/-- Model of `time.ParseDuration` (documented behavior): optional sign, the
special case "0", then a sequence of `[number][.fraction]unit` terms with
units ns, us, µs, μs, ms, s, m, h; the result is in nanoseconds. -/
def parseDurationGo (s : String) : Except String Int :=
  let signRest :=
    match s.data with
    | '-' :: t => (true, t)
    | '+' :: t => (false, t)
    | t => (false, t)
  let neg := signRest.1
  let cs1 := signRest.2
  if cs1 = ['0'] then .ok 0
  else if cs1.isEmpty then .error ("time: invalid duration " ++ s)
  else
    match durLoop s (cs1.length + 1) 0 cs1 with
    | .error e => .error e
    | .ok d => .ok (if neg then -(d : Int) else (d : Int))

/-! ## Resolver: `parseKeyForOption`, `getOr`, `getRequired`, `get` -/

/-- Mirrors `parseKeyForOption`: split the raw `env` tag on "," into the
variable name and the trailing option tokens. -/
def parseKeyForOption (key : String) : String × List String :=
  let opts := stringsSplit key ","
  match opts with
  | [] => ("", [])
  | k :: rest => (k, rest)

/-- Mirrors `getOr`: the environment value when the variable is present,
the default otherwise. -/
def getOr (env : Env) (key defaultValue : String) : String :=
  match lookupEnv env key with
  | some value => value
  | none => defaultValue

/-- Mirrors `getRequired`: the environment value when present, otherwise
the empty string together with the missing-required-variable error. -/
def getRequired (env : Env) (key : String) : String × Option String :=
  match lookupEnv env key with
  | some value => (value, none)
  | none => ("", some (requiredErrMsg key))

/-- One iteration of `get`'s option loop: `""` is a no-op, `"required"`
overwrites both `val` and `err` with `getRequired`'s result, and any other
token overwrites only `err` with the unrecognized-option error. -/
def optStep (env : Env) (key : String) (acc : String × Option String) (opt : String) :
    String × Option String :=
  if opt = "" then acc
  else if opt = "required" then getRequired env key
  else (acc.1, some (unrecognizedOptionMsg opt))

/-- The `for _, opt := range opts` loop of `get`, folding `optStep` over the
option tokens starting from the initial `(val, err)` pair. -/
def optLoop (env : Env) (key : String) (acc : String × Option String)
    (opts : List String) : String × Option String :=
  opts.foldl (optStep env key) acc

/-- Mirrors `get`: resolve a field's source value from its `env` tag,
`envDefault` tag and the environment, returning `(val, err)`. -/
def get (env : Env) (field : FieldMeta) : String × Option String :=
  let ko := parseKeyForOption field.tagEnv
  optLoop env ko.1 (getOr env ko.1 field.tagDefault, none) ko.2

/-! ## Converter: `handleSlice`, `parse*s`, `set` -/

/-- Mirrors `parseInts`: element-convert with `strconv.ParseInt(v, 10, 32)`,
returning the first element's error. -/
def parseInts : List String → Except String (List Int)
  | [] => .ok []
  | v :: rest =>
    match parseIntGo v 32 with
    | .error e => .error e
    | .ok n =>
      match parseInts rest with
      | .error e => .error e
      | .ok ns => .ok (n :: ns)

/-- Mirrors `parseInt64s`: element-convert with `strconv.ParseInt(v, 10, 64)`. -/
def parseInt64s : List String → Except String (List Int)
  | [] => .ok []
  | v :: rest =>
    match parseIntGo v 64 with
    | .error e => .error e
    | .ok n =>
      match parseInt64s rest with
      | .error e => .error e
      | .ok ns => .ok (n :: ns)

/-- Mirrors `parseFloat32s`: element-convert with `strconv.ParseFloat(v, 32)`. -/
def parseFloat32s : List String → Except String (List Rat)
  | [] => .ok []
  | v :: rest =>
    match parseFloatGo v 32 with
    | .error e => .error e
    | .ok q =>
      match parseFloat32s rest with
      | .error e => .error e
      | .ok qs => .ok (q :: qs)

/-- Mirrors `parseFloat64s`: element-convert with `strconv.ParseFloat(v, 64)`. -/
def parseFloat64s : List String → Except String (List Rat)
  | [] => .ok []
  | v :: rest =>
    match parseFloatGo v 64 with
    | .error e => .error e
    | .ok q =>
      match parseFloat64s rest with
      | .error e => .error e
      | .ok qs => .ok (q :: qs)

/-- Mirrors `parseBools`: element-convert with `strconv.ParseBool`. -/
def parseBools : List String → Except String (List Bool)
  | [] => .ok []
  | v :: rest =>
    match parseBoolGo v with
    | .error e => .error e
    | .ok b =>
      match parseBools rest with
      | .error e => .error e
      | .ok bs => .ok (b :: bs)

/-- Mirrors `handleSlice`: default the separator to ",", split the source
value, and dispatch on the slice's element type; on an element conversion
error the slice is left at its old value. -/
def handleSlice (elem : SliceElem) (old : List GoValue) (value separator : String) :
    GoValue × Option String :=
  let sep := if separator = "" then "," else separator
  let splitData := stringsSplit value sep
  match elem with
  | .eString => (.vSlice .eString (splitData.map GoValue.vString), none)
  | .eInt =>
    match parseInts splitData with
    | .ok ns => (.vSlice .eInt (ns.map (fun n => GoValue.vInt n)), none)
    | .error e => (.vSlice .eInt old, some e)
  | .eInt64 =>
    match parseInt64s splitData with
    | .ok ns => (.vSlice .eInt64 (ns.map (fun n => GoValue.vInt64 false n)), none)
    | .error e => (.vSlice .eInt64 old, some e)
  | .eFloat32 =>
    match parseFloat32s splitData with
    | .ok qs => (.vSlice .eFloat32 (qs.map (fun q => GoValue.vFloat32 q)), none)
    | .error e => (.vSlice .eFloat32 old, some e)
  | .eFloat64 =>
    match parseFloat64s splitData with
    | .ok qs => (.vSlice .eFloat64 (qs.map (fun q => GoValue.vFloat64 q)), none)
    | .error e => (.vSlice .eFloat64 old, some e)
  | .eBool =>
    match parseBools splitData with
    | .ok bs => (.vSlice .eBool (bs.map (fun b => GoValue.vBool b)), none)
    | .error e => (.vSlice .eBool old, some e)
  | .eOther => (.vSlice .eOther old, some errUnsupportedSliceType)

/-- Mirrors `set`: the Converter's `switch field.Kind()` dispatch.  On an
error the field keeps its old value (every error path in the source returns
before the corresponding `Set*` call). -/
def set (field : GoValue) (refType : FieldMeta) (value : String) :
    GoValue × Option String :=
  match field with
  | .vSlice elem elems => handleSlice elem elems value refType.tagSeparator
  | .vString _ => (.vString value, none)
  | .vBool b0 =>
    match parseBoolGo value with
    | .ok b => (.vBool b, none)
    | .error e => (.vBool b0, some e)
  | .vInt n0 =>
    match parseIntGo value 32 with
    | .ok n => (.vInt n, none)
    | .error e => (.vInt n0, some e)
  | .vUint n0 =>
    match parseUintGo value 32 with
    | .ok n => (.vUint n, none)
    | .error e => (.vUint n0, some e)
  | .vFloat32 q0 =>
    match parseFloatGo value 32 with
    | .ok q => (.vFloat32 q, none)
    | .error e => (.vFloat32 q0, some e)
  | .vFloat64 q0 =>
    match parseFloatGo value 64 with
    | .ok q => (.vFloat64 q, none)
    | .error e => (.vFloat64 q0, some e)
  | .vInt64 true n0 =>
    match parseDurationGo value with
    | .ok d => (.vInt64 true d, none)
    | .error e => (.vInt64 true n0, some e)
  | .vInt64 false n0 =>
    match parseIntGo value 64 with
    | .ok n => (.vInt64 false n, none)
    | .error e => (.vInt64 false n0, some e)
  | .vStruct fs => (.vStruct fs, some errMismatchType)
  | .vPtr p => (.vPtr p, some errUnsupportedType)
  | .vOther => (.vOther, some errUnsupportedType)

/-! ## Binder: `doParse` and `Parse` -/

/-- Mirrors lines 147-150 of `doParse` (and, through `Parse`, the error an
inner pointer recursion propagates): a fatal error is returned as-is;
otherwise an empty error list is success and a non-empty one is joined
with ". " into a single composite message. -/
def finishParse (errorList : List String) (fatal : Option String) : Option String :=
  match fatal with
  | some e => some e
  | none =>
    if errorList.isEmpty then none
    else some (String.intercalate ". " errorList)

/-- The `for i := 0; i < refType.NumField(); i++` loop of `doParse`,
returning the updated fields, the collected `errorList`, and the fatal
error of the `return err` at line 112 when an inner `Parse` on a non-nil
writable pointer field fails (in which case the loop stops and the
remaining fields are untouched).  `Parse(ref.Field(i).Interface())` is
inlined: its not-a-struct-pointer check becomes the two pointer arms of
the outer match, and its error is the inner loop's `finishParse`. -/
def doParseLoop (env : Env) (fs : List (FieldMeta × GoValue)) :
    List (FieldMeta × GoValue) × List String × Option String :=
  match fs with
  | [] => ([], [], none)
  | (meta, v) :: rest =>
    match v, meta.canSet with
    | .vPtr (some (.vStruct inner)), true =>
      let r := doParseLoop env inner
      let v2 := GoValue.vPtr (some (.vStruct r.1))
      match finishParse r.2.1 r.2.2 with
      | some e => ((meta, v2) :: rest, [], some e)
      | none =>
        let rr := doParseLoop env rest
        ((meta, v2) :: rr.1, rr.2.1, rr.2.2)
    | .vPtr (some pv), true => ((meta, .vPtr (some pv)) :: rest, [], some errNotAStructPtr)
    | v, cS =>
      if !cS && !isStructKind v then
        let rr := doParseLoop env rest
        ((meta, v) :: rr.1, rr.2.1, rr.2.2)
      else
        let g := get env meta
        match v, (g.1 == "") with
        | .vStruct inner, true =>
          let rr := doParseLoop env rest
          ((meta, GoValue.vStruct (doParseLoop env inner).1) :: rr.1, rr.2.1, rr.2.2)
        | .vPtr (some (.vStruct inner)), true =>
          let rr := doParseLoop env rest
          ((meta, GoValue.vPtr (some (.vStruct (doParseLoop env inner).1))) :: rr.1,
            rr.2.1, rr.2.2)
        | v, _ =>
          match g.2 with
          | some e =>
            let rr := doParseLoop env rest
            ((meta, v) :: rr.1, e :: rr.2.1, rr.2.2)
          | none =>
            if g.1 == "" then
              let rr := doParseLoop env rest
              ((meta, v) :: rr.1, rr.2.1, rr.2.2)
            else
              let sr := set v meta g.1
              let rr := doParseLoop env rest
              match sr.2 with
              | some e => ((meta, sr.1) :: rr.1, e :: rr.2.1, rr.2.2)
              | none => ((meta, sr.1) :: rr.1, rr.2.1, rr.2.2)

/-- Outcome of processing one field in `doParse`'s loop: either the fatal
`return err` of the pointer-recursion case, or the new field value together
with the error (if any) appended to `errorList` before moving on. -/
inductive StepResult where
  | fatal (v : GoValue) (e : String)
  | cont (v : GoValue) (err : Option String)

/-- One iteration of `doParse`'s loop on field `(meta, v)`, expressed as a
standalone function over the already-defined recursion (used to state and
prove the unfolding lemma `doParseLoop_cons`). -/
def bindField (env : Env) (meta : FieldMeta) (v : GoValue) : StepResult :=
  match v, meta.canSet with
  | .vPtr (some (.vStruct inner)), true =>
    let r := doParseLoop env inner
    let v2 := GoValue.vPtr (some (.vStruct r.1))
    match finishParse r.2.1 r.2.2 with
    | some e => .fatal v2 e
    | none => .cont v2 none
  | .vPtr (some pv), true => .fatal (.vPtr (some pv)) errNotAStructPtr
  | v, cS =>
    if !cS && !isStructKind v then .cont v none
    else
      let g := get env meta
      match v, (g.1 == "") with
      | .vStruct inner, true => .cont (.vStruct (doParseLoop env inner).1) none
      | .vPtr (some (.vStruct inner)), true =>
        .cont (.vPtr (some (.vStruct (doParseLoop env inner).1))) none
      | v, _ =>
        match g.2 with
        | some e => .cont v (some e)
        | none =>
          if g.1 == "" then .cont v none
          else
            let sr := set v meta g.1
            .cont sr.1 sr.2

/-- Mirrors `doParse`: run the field loop and produce the final result of
lines 147-150. -/
def doParse (env : Env) (fields : List (FieldMeta × GoValue)) :
    List (FieldMeta × GoValue) × Option String :=
  let r := doParseLoop env fields
  (r.1, finishParse r.2.1 r.2.2)

/-- Mirrors `Parse`: reject anything that is not a pointer to a struct with
`ErrNotAStructPtr` (leaving the value untouched), otherwise bind the
pointee's fields with `doParse`. -/
def parse (env : Env) (v : GoValue) : GoValue × Option String :=
  match v with
  | .vPtr (some (.vStruct fields)) =>
    let r := doParse env fields
    (.vPtr (some (.vStruct r.1)), r.2)
  | v => (v, some errNotAStructPtr)

/-! ## General lemmas about the Binder -/

/-- Unfolding lemma: `doParse`'s loop processes the head field with
`bindField` and, unless that is fatal, continues with the remaining
fields. -/
theorem doParseLoop_cons (env : Env) (meta : FieldMeta) (v : GoValue)
    (rest : List (FieldMeta × GoValue)) :
    doParseLoop env ((meta, v) :: rest) =
      match bindField env meta v with
      | .fatal v2 e => ((meta, v2) :: rest, [], some e)
      | .cont v2 err =>
        let rr := doParseLoop env rest
        ((meta, v2) :: rr.1,
          (match err with | some e => e :: rr.2.1 | none => rr.2.1),
          rr.2.2) := by
  rw [doParseLoop.eq_def]
  rcases v with s | b | n | n | q | q | ⟨d, n⟩ | ⟨el, es⟩ | fields | (_ | pv) | _ <;>
    (try cases pv) <;> cases hc : meta.canSet <;>
    simp only [bindField, hc] <;>
    (repeat' split) <;> simp_all

/-- A fatal step only arises from the pointer-recursion case, i.e. on a
non-nil pointer field that is settable. -/
theorem bindField_fatal_imp (env : Env) (meta : FieldMeta) (v : GoValue)
    (v2 : GoValue) (e : String) (h : bindField env meta v = .fatal v2 e) :
    (isNonNilPtr v && meta.canSet) = true := by
  rcases v with s | b | n | n | q | q | ⟨d, n⟩ | ⟨el, es⟩ | fields | (_ | pv) | _ <;>
    (try cases pv) <;> cases hc : meta.canSet <;>
    simp only [bindField, hc, isNonNilPtr] at h ⊢ <;>
    (repeat' split at h) <;> simp_all

/-- A record none of whose top-level fields is a settable non-nil pointer
is never aborted fatally. -/
theorem doParseLoop_no_fatal (env : Env) (fs : List (FieldMeta × GoValue))
    (h : ∀ f ∈ fs, (isNonNilPtr f.2 && f.1.canSet) = false) :
    (doParseLoop env fs).2.2 = none := by
  induction fs with
  | nil => rw [doParseLoop.eq_def]
  | cons f rest ih =>
    obtain ⟨meta, v⟩ := f
    rw [doParseLoop_cons]
    cases hb : bindField env meta v with
    | fatal v2 e =>
      have h1 := bindField_fatal_imp env meta v v2 e hb
      have h0 := h (meta, v) (List.mem_cons_self _ _)
      simp_all
    | cont v2 err =>
      have hrest : ∀ f ∈ rest, (isNonNilPtr f.2 && f.1.canSet) = false :=
        fun f hf => h f (List.mem_cons_of_mem _ hf)
      cases err <;> simpa using ih hrest

/-- Processing a concatenation: the prefix is processed first; a fatal
error there leaves the suffix untouched, otherwise the suffix is processed
and the fields, error lists and fatal flag combine pointwise. -/
theorem doParseLoop_append (env : Env) (pre rest : List (FieldMeta × GoValue)) :
    doParseLoop env (pre ++ rest) =
      match (doParseLoop env pre).2.2 with
      | some e => ((doParseLoop env pre).1 ++ rest, (doParseLoop env pre).2.1, some e)
      | none =>
        ((doParseLoop env pre).1 ++ (doParseLoop env rest).1,
          (doParseLoop env pre).2.1 ++ (doParseLoop env rest).2.1,
          (doParseLoop env rest).2.2) := by
  induction pre with
  | nil =>
    have h0 : doParseLoop env ([] : List (FieldMeta × GoValue)) = ([], [], none) := by
      rw [doParseLoop.eq_def]
    simp [h0]
  | cons f pre ih =>
    obtain ⟨meta, v⟩ := f
    rw [List.cons_append, doParseLoop_cons, doParseLoop_cons]
    cases hb : bindField env meta v with
    | fatal v2 e => simp
    | cont v2 err =>
      rw [ih]
      cases hp : (doParseLoop env pre).2.2 <;> cases err <;> simp

/-- On a settable non-nil pointer field, one step of the loop is exactly a
recursive `Parse` of the pointer: a fatal stop when that fails, otherwise
the field is replaced by the recursed pointer. -/
theorem bindField_ptr (env : Env) (meta : FieldMeta) (pv : GoValue)
    (hc : meta.canSet = true) :
    bindField env meta (.vPtr (some pv)) =
      match (parse env (.vPtr (some pv))).2 with
      | some e => .fatal (parse env (.vPtr (some pv))).1 e
      | none => .cont (parse env (.vPtr (some pv))).1 none := by
  cases pv <;> simp only [bindField, hc, parse, doParse]

/-- On a by-value struct field whose resolved source value is empty, one
step of the loop recurses into the nested fields, discards any nested
error, and reports no error of its own. -/
theorem bindField_struct_empty (env : Env) (meta : FieldMeta)
    (inner : List (FieldMeta × GoValue)) (hval : (get env meta).1 = "") :
    bindField env meta (.vStruct inner) =
      .cont (.vStruct (doParseLoop env inner).1) none := by
  cases hc : meta.canSet <;> simp [bindField, hc, isStructKind, hval]

/-- On a field that reaches the resolution-error, empty-value and convert
steps (neither pointer recursion, nor the unexported skip, nor one of the
two empty-value nested-record recursions), one step of the loop is: record
a resolution error, or skip an empty value, or convert. -/
theorem bindField_tail (env : Env) (meta : FieldMeta) (v : GoValue)
    (h1 : (isNonNilPtr v && meta.canSet) = false)
    (h2 : (meta.canSet || isStructKind v) = true)
    (h3 : ¬(isStructKind v = true ∧ (get env meta).1 = ""))
    (h4 : ¬(isPtrToStruct v = true ∧ (get env meta).1 = "")) :
    bindField env meta v =
      match (get env meta).2 with
      | some e => .cont v (some e)
      | none =>
        if (get env meta).1 = "" then .cont v none
        else .cont (set v meta (get env meta).1).1 (set v meta (get env meta).1).2 := by
  rcases v with s | b | n | n | q | q | ⟨d, n⟩ | ⟨el, es⟩ | fields | (_ | pv) | _ <;>
    (try cases pv) <;> cases hc : meta.canSet <;>
    simp_all [bindField, isNonNilPtr, isStructKind, isPtrToStruct]

/-- On a non-settable field that is not of struct kind, one step of the
loop skips the field entirely (line 118). -/
theorem bindField_skip (env : Env) (meta : FieldMeta) (v : GoValue)
    (hc : meta.canSet = false) (hs : isStructKind v = false) :
    bindField env meta v = .cont v none := by
  rcases v with s | b | n | n | q | q | ⟨d, n⟩ | ⟨el, es⟩ | fields | (_ | pv) | _ <;>
    (try cases pv) <;> simp_all [bindField, isStructKind]

/-- `Parse` on anything that is not a pointer-to-struct fails with
`ErrNotAStructPtr` and returns the value unchanged. -/
theorem parse_not_struct_ptr (env : Env) (v : GoValue)
    (h : isStructPtr v = false) :
    parse env v = (v, some errNotAStructPtr) := by
  rcases v with s | b | n | n | q | q | ⟨d, n⟩ | ⟨el, es⟩ | fields | (_ | pv) | _ <;>
    (try cases pv) <;> simp_all [parse, isStructPtr]

/-- A field that reaches the resolution-error check with an error records
that error into the list and processing continues with the following
fields. -/
theorem doParseLoop_err_recorded (env : Env) (pre post : List (FieldMeta × GoValue))
    (meta : FieldMeta) (v : GoValue) (e : String)
    (hpre : (doParseLoop env pre).2.2 = none)
    (h1 : (isNonNilPtr v && meta.canSet) = false)
    (h2 : (meta.canSet || isStructKind v) = true)
    (h3 : ¬(isStructKind v = true ∧ (get env meta).1 = ""))
    (h4 : ¬(isPtrToStruct v = true ∧ (get env meta).1 = ""))
    (herr : (get env meta).2 = some e) :
    doParseLoop env (pre ++ (meta, v) :: post) =
      ((doParseLoop env pre).1 ++ (meta, v) :: (doParseLoop env post).1,
        (doParseLoop env pre).2.1 ++ e :: (doParseLoop env post).2.1,
        (doParseLoop env post).2.2) := by
  rw [doParseLoop_append, doParseLoop_cons, bindField_tail env meta v h1 h2 h3 h4, herr]
  simp [hpre]

/-! ## Claims -/

/-- C1: for every input value that is not a pointer, or is a pointer whose
pointee is not a struct, `Parse` fails immediately with `ErrNotAStructPtr`
and returns the input value completely unchanged, so no field of any record
is written. -/
theorem claim1_reject_non_record_ptr (env : Env) (v : GoValue)
    (h : isStructPtr v = false) :
    parse env v = (v, some errNotAStructPtr) :=
  parse_not_struct_ptr env v h

/-- C1 witness: `Parse` at the concrete non-pointer input `vString "x"`. -/
theorem claim1_witness :
    isStructPtr (.vString "x") = false ∧
    parse [("HOME", "/root")] (.vString "x") = (.vString "x", some errNotAStructPtr) :=
  ⟨rfl, claim1_reject_non_record_ptr [("HOME", "/root")] (.vString "x") rfl⟩

/-- C4: a settable non-nil pointer field triggers a recursive `Parse` of
the pointee before any resolution; any error from that recursion is
returned immediately as the whole call's error, with the later sibling
fields untouched and the collected error list discarded; whereas a nested
record held by value with an empty resolved source is recursed in place and
any error from that recursion is swallowed, processing continuing with the
next field. -/
theorem claim4_owned_ptr_recursion (env : Env) (pre post : List (FieldMeta × GoValue))
    (meta : FieldMeta) (hpre : (doParseLoop env pre).2.2 = none)
    (hc : meta.canSet = true) :
    (∀ pv e, (parse env (.vPtr (some pv))).2 = some e →
      doParse env (pre ++ (meta, .vPtr (some pv)) :: post) =
        ((doParseLoop env pre).1 ++ (meta, (parse env (.vPtr (some pv))).1) :: post,
          some e)) ∧
    (∀ inner, (get env meta).1 = "" →
      doParseLoop env (pre ++ (meta, .vStruct inner) :: post) =
        ((doParseLoop env pre).1 ++
            (meta, .vStruct (doParseLoop env inner).1) :: (doParseLoop env post).1,
          (doParseLoop env pre).2.1 ++ (doParseLoop env post).2.1,
          (doParseLoop env post).2.2)) := by
  constructor
  · intro pv e he
    rw [doParse, doParseLoop_append, doParseLoop_cons, bindField_ptr env meta pv hc, he]
    simp [hpre, finishParse]
  · intro inner hval
    rw [doParseLoop_append, doParseLoop_cons, bindField_struct_empty env meta inner hval]
    simp [hpre]

/-- C4 witness: a settable pointer-to-int field aborts the whole call with
`ErrNotAStructPtr` (the error of the recursive `Parse`). -/
theorem claim4_witness :
    doParse [] [(⟨true, "", "", ""⟩, .vPtr (some (.vInt 5)))] =
      ([(⟨true, "", "", ""⟩, .vPtr (some (.vInt 5)))], some errNotAStructPtr) := by
  have h := (claim4_owned_ptr_recursion [] [] [] ⟨true, "", "", ""⟩
      (by rw [doParseLoop.eq_def]) rfl).1 (.vInt 5) errNotAStructPtr rfl
  simpa [parse, doParseLoop.eq_def] using h

/-- C6 (amended): for every binding call that is not fatally aborted: an
empty error list is success, a non-empty one fails with exactly one
composite error joining every collected message with ". "; and the list
concatenates per declaration-order split of the fields, so two failing
fields contribute their messages in declaration order. -/
theorem claim6_error_aggregation (env : Env) (fs : List (FieldMeta × GoValue))
    (h : (doParseLoop env fs).2.2 = none) :
    ((doParseLoop env fs).2.1 = [] → (doParse env fs).2 = none) ∧
    ((doParseLoop env fs).2.1 ≠ [] →
      (doParse env fs).2 = some (String.intercalate ". " (doParseLoop env fs).2.1)) ∧
    (∀ pre post, fs = pre ++ post →
      (doParseLoop env fs).2.1 =
        (doParseLoop env pre).2.1 ++ (doParseLoop env post).2.1) := by
  refine ⟨?_, ?_, ?_⟩
  · intro he; simp [doParse, finishParse, h, he]
  · intro he; simp [doParse, finishParse, h, he]
  · intro pre post hsplit
    subst hsplit
    rw [doParseLoop_append] at h ⊢
    cases hp : (doParseLoop env pre).2.2 with
    | none => simp [hp]
    | some e => rw [hp] at h; simp at h

/-- C6 counterexample: the claim as stated is false: a call aborted by the
fatal pointer-recursion error has an empty collected error list and still
fails (with the fatal error, not a joined composite). -/
theorem claim6_cex :
    (doParseLoop [] [(⟨true, "", "", ""⟩, .vPtr (some (.vInt 0)))]).2.1 = [] ∧
    (doParse [] [(⟨true, "", "", ""⟩, .vPtr (some (.vInt 0)))]).2 ≠ none := by
  constructor
  · simp +ground only [doParseLoop]
  · intro hcontra
    simp +ground only [doParse, doParseLoop] at hcontra

/-- C6 witness: two failing fields (missing-required then
unrecognized-option) produce the two messages joined with ". " in
declaration order. -/
theorem claim6_witness :
    (doParse [] [(⟨true, "A,required", "", ""⟩, .vString ""),
        (⟨true, "B,bogus", "", ""⟩, .vString "")]).2 =
      some "Required environment variable A is not set. Env tag option bogus not supported." := by
  have h := (claim6_error_aggregation []
      [(⟨true, "A,required", "", ""⟩, .vString ""), (⟨true, "B,bogus", "", ""⟩, .vString "")]
      (by simp +ground only [doParseLoop])).2.1
      (by intro hh; simp +ground only [doParseLoop] at hh)
  rw [h]
  simp +ground only [doParseLoop]

/-- C2 (amended): for a field processed by the loop (no fatal abort among
the earlier fields) that is not a record by value and not a settable
non-nil pointer: if its resolved source value is empty the field keeps its
pre-call value (whatever the resolution error), and a settable such field
whose resolved value is non-empty with no resolution error ends up exactly
at the result of the single Converter application (which itself leaves the
value unchanged when conversion fails). -/
theorem claim2_frame (env : Env) (pre post : List (FieldMeta × GoValue))
    (meta : FieldMeta) (v : GoValue)
    (hpre : (doParseLoop env pre).2.2 = none)
    (hstruct : isStructKind v = false)
    (hptr : (isNonNilPtr v && meta.canSet) = false) :
    ((get env meta).1 = "" →
      (doParseLoop env (pre ++ (meta, v) :: post)).1 =
        (doParseLoop env pre).1 ++ (meta, v) :: (doParseLoop env post).1) ∧
    (∀ value, get env meta = (value, none) → value ≠ "" → meta.canSet = true →
      (doParseLoop env (pre ++ (meta, v) :: post)).1 =
        (doParseLoop env pre).1 ++ (meta, (set v meta value).1) :: (doParseLoop env post).1) := by
  have h4 : ∀ value2 : String, value2 ≠ "" → ¬(isPtrToStruct v = true ∧ value2 = "") := by
    intro value2 hv hcon
    exact hv hcon.2
  constructor
  · intro hval
    cases hc : meta.canSet with
    | false =>
      rw [doParseLoop_append, doParseLoop_cons, bindField_skip env meta v hc hstruct]
      simp [hpre]
    | true =>
      have hb := bindField_tail env meta v (by simp_all) (by simp [hc])
        (by simp [hstruct]) (by
          intro hcon
          rcases v with s | b | n | n | q | q | ⟨d, n⟩ | ⟨el, es⟩ | fields | (_ | pv) | _ <;>
            simp_all [isPtrToStruct, isNonNilPtr])
      rw [doParseLoop_append, doParseLoop_cons, hb]
      cases hg : (get env meta).2 <;> simp [hpre, hg, hval]
  · intro value hget hvne hc
    have hb := bindField_tail env meta v (by simp_all) (by simp [hc])
      (by intro hcon; rw [hget] at hcon; exact hvne hcon.2)
      (by intro hcon; rw [hget] at hcon; exact hvne hcon.2)
    rw [hget] at hb
    simp only at hb
    rw [doParseLoop_append, doParseLoop_cons, hb]
    rw [if_neg hvne]
    simp [hpre]

/-- C2 witness: a settable int field bound from "7" is written with the
Converter result. -/
theorem claim2_witness :
    (doParseLoop [("P", "7")] [(⟨true, "P", "", ""⟩, .vInt 0)]).1 =
      [(⟨true, "P", "", ""⟩, (set (.vInt 0) ⟨true, "P", "", ""⟩ "7").1)] := by
  have h := (claim2_frame [("P", "7")] [] [] ⟨true, "P", "", ""⟩ (.vInt 0)
      (by rw [doParseLoop.eq_def]) rfl rfl).2 "7" rfl (by decide) rfl
  simpa [doParseLoop.eq_def] using h

/-- C2 counterexample: the claim as stated is false: (a) a nested by-value
record field whose resolved source value is empty is nevertheless mutated
by the recursion into its fields; (b) a settable, non-pointer bool field
with the non-empty resolved value "garbage" is not written at all. -/
theorem claim2_cex :
    ((get [("N", "x")] ⟨true, "", "", ""⟩).1 = "" ∧
      (doParse [("N", "x")]
          [(⟨true, "", "", ""⟩, .vStruct [(⟨true, "N", "", ""⟩, .vString "")])]).1 ≠
        [(⟨true, "", "", ""⟩, .vStruct [(⟨true, "N", "", ""⟩, .vString "")])]) ∧
    (get [("B", "garbage")] ⟨true, "B", "", ""⟩ = ("garbage", none) ∧
      (doParse [("B", "garbage")] [(⟨true, "B", "", ""⟩, .vBool false)]).1 =
        [(⟨true, "B", "", ""⟩, .vBool false)]) := by
  refine ⟨⟨rfl, ?_⟩, rfl, ?_⟩
  · have h1 : (doParse [("N", "x")]
        [(⟨true, "", "", ""⟩, .vStruct [(⟨true, "N", "", ""⟩, .vString "")])]).1 =
        [(⟨true, "", "", ""⟩, .vStruct [(⟨true, "N", "", ""⟩, .vString "x")])] := by
      simp +ground only [doParse, doParseLoop]
    rw [h1]
    simp
  · simp +ground only [doParse, doParseLoop]

/-- C3 (amended): a resolution error is recorded into the error list and
processing continues with the following fields, for every field that
reaches the resolution-error check: not a settable non-nil pointer, not
skipped as unexported, and not diverted into one of the two nested-record
recursions (record by value, or pointer-to-record, with empty resolved
value), where the error is silently dropped instead. -/
theorem claim3_resolution_error (env : Env) (pre post : List (FieldMeta × GoValue))
    (meta : FieldMeta) (v : GoValue) (e : String)
    (hpre : (doParseLoop env pre).2.2 = none)
    (h1 : (isNonNilPtr v && meta.canSet) = false)
    (h2 : (meta.canSet || isStructKind v) = true)
    (h3 : ¬(isStructKind v = true ∧ (get env meta).1 = ""))
    (h4 : ¬(isPtrToStruct v = true ∧ (get env meta).1 = ""))
    (herr : (get env meta).2 = some e) :
    (doParseLoop env (pre ++ (meta, v) :: post)).2.1 =
      (doParseLoop env pre).2.1 ++ e :: (doParseLoop env post).2.1 := by
  rw [doParseLoop_err_recorded env pre post meta v e hpre h1 h2 h3 h4 herr]

/-- C3 witness: an unrecognized-option error on an int field is recorded. -/
theorem claim3_witness :
    (doParseLoop [] [(⟨true, "Q,bogus", "d", ""⟩, .vInt 0)]).2.1 =
      [unrecognizedOptionMsg "bogus"] := by
  have h := claim3_resolution_error [] [] [] ⟨true, "Q,bogus", "d", ""⟩ (.vInt 0)
      (unrecognizedOptionMsg "bogus") (by rw [doParseLoop.eq_def]) rfl rfl
      (by intro hcon; exact absurd hcon.1 (by decide))
      (by intro hcon; exact absurd hcon.1 (by decide)) rfl
  simpa [doParseLoop.eq_def] using h

/-- C3 counterexample: the claim as stated is false for nested records: a
struct-kind field tagged `env:"FOO,required"` with `FOO` absent resolves
with an error, yet binding succeeds because the empty-value struct
recursion at line 124 runs before the error check at line 135 and the
error is dropped. -/
theorem claim3_cex :
    (get [] ⟨true, "FOO,required", "", ""⟩).2 = some (requiredErrMsg "FOO") ∧
    (doParse [] [(⟨true, "FOO,required", "", ""⟩, .vStruct [])]).2 = none := by
  constructor
  · rfl
  · simp +ground only [doParse, doParseLoop]

/-- C5 (amended): for a settable, non-record field whose `env` tag splits
into a key and the single option "required", with the key absent from the
environment and no settable non-nil pointer field aborting the call: the
Resolver returns the empty value with the missing-required-variable error
naming the key (the declared default is ignored: the result does not
depend on `tagDefault`), the error is recorded, and the call fails with
the composite message containing it. -/
theorem claim5_required_missing (env : Env) (pre post : List (FieldMeta × GoValue))
    (meta : FieldMeta) (v : GoValue) (key : String)
    (hnf : ∀ f ∈ pre ++ (meta, v) :: post, (isNonNilPtr f.2 && f.1.canSet) = false)
    (hc : meta.canSet = true) (hs : isStructKind v = false)
    (hkey : parseKeyForOption meta.tagEnv = (key, ["required"]))
    (henv : lookupEnv env key = none) :
    get env meta = ("", some (requiredErrMsg key)) ∧
    requiredErrMsg key ∈ (doParseLoop env (pre ++ (meta, v) :: post)).2.1 ∧
    (doParse env (pre ++ (meta, v) :: post)).2 =
      some (String.intercalate ". "
        ((doParseLoop env pre).2.1 ++ requiredErrMsg key :: (doParseLoop env post).2.1)) := by
  have hget : get env meta = ("", some (requiredErrMsg key)) := by
    simp [get, hkey, optLoop, optStep, getRequired, henv]
  have hpre : (doParseLoop env pre).2.2 = none :=
    doParseLoop_no_fatal env pre (fun f hf => hnf f (List.mem_append_left _ hf))
  have hfield := hnf (meta, v) (List.mem_append_right _ (List.mem_cons_self _ _))
  have h4 : ¬(isPtrToStruct v = true ∧ (get env meta).1 = "") := by
    intro hcon
    rcases v with s | b | n | n | q | q | ⟨d, n⟩ | ⟨el, es⟩ | fields | (_ | pv) | _ <;>
      simp_all [isPtrToStruct, isNonNilPtr]
  have hrec := doParseLoop_err_recorded env pre post meta v (requiredErrMsg key) hpre
    (by simp_all) (by simp [hc]) (by simp [hs]) h4 (by rw [hget])
  refine ⟨hget, ?_, ?_⟩
  · rw [hrec]
    simp
  · have hnofatal : (doParseLoop env (pre ++ (meta, v) :: post)).2.2 = none :=
      doParseLoop_no_fatal env _ hnf
    rw [doParse]
    simp only [hrec, finishParse] at hnofatal ⊢
    simp [finishParse, hnofatal]

/-- C5 witness: a string field tagged `env:"R,required"` with default "dd"
and `R` absent fails with the missing-required-variable message. -/
theorem claim5_witness :
    (doParse [] [(⟨true, "R,required", "dd", ""⟩, .vString "old")]).2 =
      some (requiredErrMsg "R") := by
  have h := (claim5_required_missing [] [] [] ⟨true, "R,required", "dd", ""⟩
      (.vString "old") "R"
      (by intro f hf
          simp only [List.nil_append, List.mem_singleton] at hf
          subst hf
          rfl)
      rfl rfl rfl rfl).2.2
  simpa [doParseLoop.eq_def] using h

/-- C5 counterexample: the claim as stated is false: a record-by-value
field tagged `env:"BAR,required"` with `BAR` absent binds successfully,
because the nested-record recursion drops the resolution error. -/
theorem claim5_cex :
    parseKeyForOption "BAR,required" = ("BAR", ["required"]) ∧
    lookupEnv [] "BAR" = none ∧
    (doParse [] [(⟨true, "BAR,required", "", ""⟩, .vStruct [])]).2 = none := by
  refine ⟨rfl, rfl, ?_⟩
  simp +ground only [doParse, doParseLoop]

/-- C7: a slice field is converted by `handleSlice` with the field's
declared separator; the source value is split by that separator (comma
when the annotation is empty) and each piece is element-converted with the
matching scalar rule (shown for strings and 32-bit ints), the whole field
failing on the first element that fails to parse and keeping its old value;
binding "a:b:c" with separator ":" into a string slice yields
["a", "b", "c"]. -/
theorem claim7_sequence_fields :
    (∀ (meta : FieldMeta) (elem : SliceElem) (old : List GoValue) (value : String),
      set (.vSlice elem old) meta value = handleSlice elem old value meta.tagSeparator) ∧
    (∀ old value sep, sep ≠ "" →
      handleSlice .eString old value sep =
        (.vSlice .eString ((stringsSplit value sep).map GoValue.vString), none)) ∧
    (∀ old value,
      handleSlice .eString old value "" =
        (.vSlice .eString ((stringsSplit value ",").map GoValue.vString), none)) ∧
    (∀ good bad rest e, (∀ s ∈ good, ∃ n, parseIntGo s 32 = .ok n) →
      parseIntGo bad 32 = .error e → parseInts (good ++ bad :: rest) = .error e) ∧
    (∀ old value sep e,
      parseInts (stringsSplit value (if sep = "" then "," else sep)) = .error e →
      handleSlice .eInt old value sep = (.vSlice .eInt old, some e)) ∧
    handleSlice .eString [] "a:b:c" ":" =
      (.vSlice .eString [.vString "a", .vString "b", .vString "c"], none) := by
  refine ⟨fun meta elem old value => rfl, ?_, fun old value => rfl, ?_, ?_, rfl⟩
  · intro old value sep hsep
    simp [handleSlice, hsep]
  · intro good bad rest e hgood hbad
    induction good with
    | nil => simp [parseInts, hbad]
    | cons g gs ih =>
      obtain ⟨n, hn⟩ := hgood g (List.mem_cons_self _ _)
      have ih2 := ih (fun s hs => hgood s (List.mem_cons_of_mem _ hs))
      simp only [List.cons_append, parseInts, hn, List.append_eq, ih2]
  · intro old value sep e herr
    simp [handleSlice, herr]

/-- C7 witness: the int-slice element conversion fails on the first bad
element "x". -/
theorem claim7_witness :
    parseInts ["1", "x", "3"] =
      .error "strconv.ParseInt: parsing \"x\": invalid syntax" := by
  have h := claim7_sequence_fields.2.2.2.1 ["1"] "x" ["3"]
      "strconv.ParseInt: parsing \"x\": invalid syntax"
      (by intro s hs
          simp only [List.mem_singleton] at hs
          subst hs
          exact ⟨1, rfl⟩)
      rfl
  simpa using h

/-- C8: a 64-bit signed integer field whose static type is `time.Duration`
is converted with the duration-literal grammar, any other 64-bit signed
integer field as a plain base-10 integer; "1h30m" yields 5400000000000 ns,
which is 90 minutes, and "garbage" fails with a conversion error that
leaves the field unchanged. -/
theorem claim8_duration_dispatch :
    (∀ (meta : FieldMeta) (n : Int) (value : String),
      set (.vInt64 true n) meta value =
        match parseDurationGo value with
        | .ok d => (.vInt64 true d, none)
        | .error e => (.vInt64 true n, some e)) ∧
    (∀ (meta : FieldMeta) (n : Int) (value : String),
      set (.vInt64 false n) meta value =
        match parseIntGo value 64 with
        | .ok d => (.vInt64 false d, none)
        | .error e => (.vInt64 false n, some e)) ∧
    parseDurationGo "1h30m" = .ok 5400000000000 ∧
    (5400000000000 : Int) = 90 * 60 * 1000000000 ∧
    (∀ (meta : FieldMeta) (n : Int),
      set (.vInt64 true n) meta "1h30m" = (.vInt64 true 5400000000000, none)) ∧
    (∀ (meta : FieldMeta) (n : Int),
      set (.vInt64 true n) meta "garbage" =
        (.vInt64 true n, some ("time: invalid duration " ++ "garbage"))) := by
  exact ⟨fun meta n value => rfl, fun meta n value => rfl, rfl, by norm_num,
    fun meta n => rfl, fun meta n => rfl⟩

/-- C9 (amended): the Resolver folds the option tokens in order: an empty
token is a no-op, a trailing "required" token overwrites both value and
error with `getRequired`'s result, and a trailing unrecognized token
overwrites only the error (keeping the accumulated value) with the
unrecognized-option error, so the returned pair combines the last
"required" token's value with the last non-empty token's error rather
than reflecting only the last option. -/
theorem claim9_option_loop (env : Env) (key : String) (acc : String × Option String)
    (opts : List String) :
    (optLoop env key acc (opts ++ [""]) = optLoop env key acc opts) ∧
    (optLoop env key acc (opts ++ ["required"]) = getRequired env key) ∧
    (∀ t, t ≠ "" → t ≠ "required" →
      optLoop env key acc (opts ++ [t]) =
        ((optLoop env key acc opts).1, some (unrecognizedOptionMsg t))) ∧
    (∀ meta : FieldMeta, get env meta =
      optLoop env (parseKeyForOption meta.tagEnv).1
        (getOr env (parseKeyForOption meta.tagEnv).1 meta.tagDefault, none)
        (parseKeyForOption meta.tagEnv).2) := by
  refine ⟨?_, ?_, ?_, fun meta => rfl⟩
  · simp [optLoop, List.foldl_append, optStep]
  · simp [optLoop, List.foldl_append, optStep]
  · intro t h1 h2
    simp [optLoop, List.foldl_append, optStep, h1, h2]

/-- C9 witness: the option list ["required", "bogus"] on an absent key
keeps required's empty value and bogus's error. -/
theorem claim9_witness :
    optLoop [] "K" ("d", none) (["required"] ++ ["bogus"]) =
      ("", some (unrecognizedOptionMsg "bogus")) := by
  have h := (claim9_option_loop [] "K" ("d", none) ["required"]).2.2.1 "bogus"
      (by decide) (by decide)
  rw [h]
  rfl

/-- C9 counterexample: the claim as stated is false: with options
"required,bogus", an absent key and default "d", the returned value is ""
(required's effect), while the last option alone would have produced "d";
so more than the last option's effect persists. -/
theorem claim9_cex :
    get [] ⟨true, "K,required,bogus", "d", ""⟩ = ("", some (unrecognizedOptionMsg "bogus")) ∧
    get [] ⟨true, "K,bogus", "d", ""⟩ = ("d", some (unrecognizedOptionMsg "bogus")) :=
  ⟨rfl, rfl⟩

/-- C10 (amended): a settable non-nil pointer field whose pointee is not a
struct makes the whole call (when it reaches that field) fail fatally with
`ErrNotAStructPtr`, the later sibling fields untouched; a settable nil
pointer field is left nil, producing no error when its resolved source
value is empty and a non-fatal unsupported-type error when it is
non-empty. -/
theorem claim10_ptr_non_record (env : Env) (pre post : List (FieldMeta × GoValue))
    (meta : FieldMeta) (pv : GoValue)
    (hpre : (doParseLoop env pre).2.2 = none)
    (hc : meta.canSet = true) (hns : isStructKind pv = false) :
    (doParse env (pre ++ (meta, .vPtr (some pv)) :: post) =
      ((doParseLoop env pre).1 ++ (meta, .vPtr (some pv)) :: post,
        some errNotAStructPtr)) ∧
    (∀ meta2 : FieldMeta, meta2.canSet = true → get env meta2 = ("", none) →
      doParseLoop env ((meta2, .vPtr none) :: post) =
        ((meta2, .vPtr none) :: (doParseLoop env post).1,
          (doParseLoop env post).2.1, (doParseLoop env post).2.2)) ∧
    (∀ (meta2 : FieldMeta) (value : String), meta2.canSet = true →
      get env meta2 = (value, none) → value ≠ "" →
      doParseLoop env ((meta2, .vPtr none) :: post) =
        ((meta2, .vPtr none) :: (doParseLoop env post).1,
          errUnsupportedType :: (doParseLoop env post).2.1,
          (doParseLoop env post).2.2)) := by
  have hparse : parse env (.vPtr (some pv)) = (.vPtr (some pv), some errNotAStructPtr) := by
    apply parse_not_struct_ptr
    rcases pv with s | b | n | n | q | q | ⟨d, n⟩ | ⟨el, es⟩ | fields | p | _ <;>
      simp_all [isStructPtr, isStructKind]
  refine ⟨?_, ?_, ?_⟩
  · rw [doParse, doParseLoop_append, doParseLoop_cons, bindField_ptr env meta pv hc, hparse]
    simp [hpre, finishParse]
  · intro meta2 hc2 hget2
    have hb := bindField_tail env meta2 (.vPtr none) (by simp [isNonNilPtr])
      (by simp [hc2]) (by simp [isStructKind]) (by simp [isPtrToStruct])
    rw [hget2] at hb
    simp only at hb
    rw [doParseLoop_cons, hb]
    simp
  · intro meta2 value hc2 hget2 hvne
    have hb := bindField_tail env meta2 (.vPtr none) (by simp [isNonNilPtr])
      (by simp [hc2]) (by simp [isStructKind]) (by simp [isPtrToStruct])
    rw [hget2] at hb
    simp only at hb
    rw [doParseLoop_cons, hb, if_neg hvne]
    simp [set]

/-- C10 witness: a record with a settable non-nil `*int` field fails
fatally with `ErrNotAStructPtr`; the later sibling is untouched. -/
theorem claim10_witness :
    doParse [] [(⟨true, "", "", ""⟩, .vString "sib"),
        (⟨true, "", "", ""⟩, .vPtr (some (.vInt 1))),
        (⟨true, "Z", "", ""⟩, .vString "later")] =
      ([(⟨true, "", "", ""⟩, .vString "sib"),
        (⟨true, "", "", ""⟩, .vPtr (some (.vInt 1))),
        (⟨true, "Z", "", ""⟩, .vString "later")], some errNotAStructPtr) := by
  have h := (claim10_ptr_non_record [] [(⟨true, "", "", ""⟩, .vString "sib")]
      [(⟨true, "Z", "", ""⟩, .vString "later")] ⟨true, "", "", ""⟩ (.vInt 1)
      (by simp +ground only [doParseLoop]) rfl rfl).1
  simpa [doParseLoop.eq_def] using h

/-- C10 counterexample: the nil-pointer half of the claim as stated is
false: a settable nil pointer field whose variable is set to "5" is left
nil but produces the unsupported-type error rather than no error. -/
theorem claim10_cex :
    (doParse [("X", "5")] [(⟨true, "X", "", ""⟩, .vPtr none)]).1 =
      [(⟨true, "X", "", ""⟩, .vPtr none)] ∧
    (doParse [("X", "5")] [(⟨true, "X", "", ""⟩, .vPtr none)]).2 =
      some errUnsupportedType := by
  constructor <;> simp +ground only [doParse, doParseLoop]

end EnvLib

